import Mathlib

/-!
A shallow embedding of the resilient acquisition subsystem implemented in
src/scraping/scraping_price.py.

Pure fragments of the script become Lean functions.  Effectful fragments
(HTTP requests, sleeps, file writes, wall-clock reads) are modelled by
explicit inputs (a sequence of per-attempt outcomes, a monotone clock) and
explicit traces (the list of performed waits, the produced manifests).
Floating-point backoff arithmetic is modelled over the rationals, and the
jitter fraction drawn by random.uniform(0.25, 0.75) is passed explicitly.
-/

namespace PrecodahoraScraper

/-- MAX_RETRIES = 6 (scraping_price.py, configuration block). -/
def MAX_RETRIES : Nat := 6

/-- BASE_BACKOFF_SECONDS = 2.0, modelled as a rational. -/
def BASE_BACKOFF_SECONDS : Rat := 2

/-- MAX_BACKOFF_SECONDS = 60.0, modelled as a rational. -/
def MAX_BACKOFF_SECONDS : Rat := 60

/-- compute_backoff(attempt): exponential backoff plus jitter.
Source: base = min(MAX_BACKOFF_SECONDS, BASE_BACKOFF_SECONDS * (2 ** (attempt - 1)));
jitter = random.uniform(0.25, 0.75) * base; return min(MAX_BACKOFF_SECONDS, base + jitter).
The random draw is modelled by the explicit jitter fraction j. -/
def compute_backoff (j : Rat) (attempt : Nat) : Rat :=
  let base := min MAX_BACKOFF_SECONDS (BASE_BACKOFF_SECONDS * 2 ^ (attempt - 1))
  let jitter := j * base
  min MAX_BACKOFF_SECONDS (base + jitter)

/-- Outcome of one attempt of session.request, as seen by request_with_retry:
either an HTTP response (status and optional Retry-After header value), or a
transport-level exception raised by the requests library. -/
inductive HttpAttempt
  | resp (status : Nat) (retryAfter : Option (List Char))
  | exc
deriving DecidableEq

/-- Causes recorded in the local variable last_err of request_with_retry.
401 responses raise RuntimeError (recorded), other 4xx/5xx raise HTTPError via
raise_for_status (recorded), transport faults are recorded as-is; the 429
branch uses continue and records nothing. -/
inductive Cause
  | unauthorized
  | httpError (status : Nat)
  | netExc
deriving DecidableEq

/-- A wait performed by time.sleep inside request_with_retry: either the parsed
Retry-After value in whole seconds, or compute_backoff(attempt) for the given
attempt number. -/
inductive Wait
  | retryAfterW (seconds : Nat)
  | backoffW (attempt : Nat)
deriving DecidableEq

/-- Python: retry_after and retry_after.isdigit() (restricted to ASCII digits). -/
def isDigitStr (s : List Char) : Bool := !s.isEmpty && s.all Char.isDigit

/-- Numeric value of a decimal digit string, as float(retry_after) would give
for an isdigit string. -/
def strToNat (s : List Char) : Nat := s.foldl (fun acc c => acc * 10 + (c.toNat - 48)) 0

/-- Trace of one call of request_with_retry: the waits performed in order, the
number of attempts issued, and the result: ok (attempt number, status) when an
attempt returned a non-retried response, or error carrying last_err when the
final RuntimeError(f"Request failed after ... last_error=...") is raised. -/
structure RWRTrace where
  waits : List Wait
  attemptsMade : Nat
  result : Except (Option Cause) (Nat × Nat)

/-- The retry loop of request_with_retry, one equation per remaining attempt.
Branch order follows the source: status 429 first (wait Retry-After if it is a
digit string, else compute_backoff, then continue, last_err untouched); then
status 401 raises RuntimeError, which the blanket except clause catches,
records as last_err and sleeps compute_backoff; then raise_for_status on
4xx/5xx, likewise caught and recorded; any other status is returned; a
transport exception is likewise caught, recorded and slept on.  When no
attempts remain, RuntimeError carrying last_err is raised. -/
def rwrGo (outcomes : Nat → HttpAttempt) : Nat → Nat → Option Cause → RWRTrace
  | _, 0, lastErr => ⟨[], 0, .error lastErr⟩
  | attempt, r + 1, lastErr =>
    match outcomes attempt with
    | .resp status retryAfter =>
      if status = 429 then
        let w := match retryAfter with
          | some s => if isDigitStr s then Wait.retryAfterW (strToNat s) else Wait.backoffW attempt
          | none => Wait.backoffW attempt
        let t := rwrGo outcomes (attempt + 1) r lastErr
        ⟨w :: t.waits, t.attemptsMade + 1, t.result⟩
      else if status = 401 then
        let t := rwrGo outcomes (attempt + 1) r (some .unauthorized)
        ⟨Wait.backoffW attempt :: t.waits, t.attemptsMade + 1, t.result⟩
      else if 400 ≤ status ∧ status < 600 then
        let t := rwrGo outcomes (attempt + 1) r (some (.httpError status))
        ⟨Wait.backoffW attempt :: t.waits, t.attemptsMade + 1, t.result⟩
      else
        ⟨[], 1, .ok (attempt, status)⟩
    | .exc =>
      let t := rwrGo outcomes (attempt + 1) r (some .netExc)
      ⟨Wait.backoffW attempt :: t.waits, t.attemptsMade + 1, t.result⟩

/-- request_with_retry: for attempt in range(1, MAX_RETRIES + 1). -/
def request_with_retry (outcomes : Nat → HttpAttempt) : RWRTrace :=
  rwrGo outcomes 1 MAX_RETRIES none

/-- An attempt outcome that does not cause request_with_retry to return:
a 429, a status raised by the 401 check or raise_for_status, or a transport
exception. -/
def isFailure : HttpAttempt → Prop
  | .resp status _ => status = 429 ∨ (400 ≤ status ∧ status < 600)
  | .exc => True

instance (a : HttpAttempt) : Decidable (isFailure a) :=
  match a with
  | .resp status _ => inferInstanceAs (Decidable (status = 429 ∨ (400 ≤ status ∧ status < 600)))
  | .exc => inferInstanceAs (Decidable True)

/-- The wait a failing attempt performs, by the branch taken in the loop. -/
def waitOf : HttpAttempt → Nat → Wait
  | .resp status retryAfter, attempt =>
    if status = 429 then
      match retryAfter with
      | some s => if isDigitStr s then Wait.retryAfterW (strToNat s) else Wait.backoffW attempt
      | none => Wait.backoffW attempt
    else Wait.backoffW attempt
  | .exc, attempt => Wait.backoffW attempt

/-- The last_err update a failing attempt performs (429 records nothing). -/
def causeOf : HttpAttempt → Option Cause
  | .resp status _ =>
    if status = 429 then none
    else if status = 401 then some .unauthorized
    else if 400 ≤ status ∧ status < 600 then some (.httpError status)
    else none
  | .exc => some .netExc

/-- The waits an all-failing stretch of r attempts starting at a given attempt
number performs. -/
def expectedWaits (outcomes : Nat → HttpAttempt) : Nat → Nat → List Wait
  | _, 0 => []
  | attempt, r + 1 => waitOf (outcomes attempt) attempt :: expectedWaits outcomes (attempt + 1) r

/-- The value of last_err after an all-failing stretch of r attempts starting
at a given attempt number, from initial accumulator acc. -/
def lastCauseFrom (outcomes : Nat → HttpAttempt) : Nat → Nat → Option Cause → Option Cause
  | _, 0, acc => acc
  | attempt, r + 1, acc =>
    lastCauseFrom outcomes (attempt + 1) r
      (match causeOf (outcomes attempt) with
       | some c => some c
       | none => acc)

theorem expectedWaits_length (outcomes : Nat → HttpAttempt) :
    ∀ (r attempt : Nat), (expectedWaits outcomes attempt r).length = r := by
  intro r
  induction r with
  | zero => intro attempt; rfl
  | succ r ih => intro attempt; simp [expectedWaits, ih]

theorem rwrGo_allFail (outcomes : Nat → HttpAttempt) :
    ∀ (r attempt : Nat) (lastErr : Option Cause),
      (∀ i, attempt ≤ i → i < attempt + r → isFailure (outcomes i)) →
      rwrGo outcomes attempt r lastErr =
        ⟨expectedWaits outcomes attempt r, r,
          .error (lastCauseFrom outcomes attempt r lastErr)⟩ := by
  intro r
  induction r with
  | zero => intro attempt lastErr _; rfl
  | succ r ih =>
    intro attempt lastErr h
    have hfail : isFailure (outcomes attempt) := h attempt (le_refl _) (by omega)
    have hrest : ∀ i, attempt + 1 ≤ i → i < attempt + 1 + r → isFailure (outcomes i) :=
      fun i h1 h2 => h i (by omega) (by omega)
    cases hout : outcomes attempt with
    | exc =>
      simp only [rwrGo, hout, ih (attempt + 1) _ hrest, expectedWaits, lastCauseFrom, waitOf,
        causeOf]
    | resp status retryAfter =>
      rw [hout] at hfail
      by_cases h429 : status = 429
      · subst h429
        simp [rwrGo, hout, ih (attempt + 1) _ hrest, expectedWaits,
          lastCauseFrom, waitOf, causeOf]
      · have hrange : 400 ≤ status ∧ status < 600 := by
          rcases hfail with h1 | h2
          · exact absurd h1 h429
          · exact h2
        by_cases h401 : status = 401
        · subst h401
          simp [rwrGo, hout, ih (attempt + 1) _ hrest,
            expectedWaits, lastCauseFrom, waitOf, causeOf]
        · simp [rwrGo, hout, if_neg h429, if_neg h401, if_pos hrange,
            ih (attempt + 1) _ hrest, expectedWaits, lastCauseFrom, waitOf, causeOf]

theorem listMapCongr {α β : Type} {l : List α} {f g : α → β}
    (h : ∀ a ∈ l, f a = g a) : l.map f = l.map g := by
  induction l with
  | nil => rfl
  | cons a l ih =>
    simp only [List.map_cons, h a (by simp)]
    rw [ih (fun x hx => h x (by simp [hx]))]

theorem expectedWaits_eq_map (outcomes : Nat → HttpAttempt) :
    ∀ (r attempt : Nat),
      expectedWaits outcomes attempt r
        = (List.range r).map (fun k => waitOf (outcomes (attempt + k)) (attempt + k)) := by
  intro r
  induction r with
  | zero => intro attempt; rfl
  | succ r ih =>
    intro attempt
    have harith : ∀ k : Nat, attempt + 1 + k = attempt + (k + 1) := fun k => by omega
    rw [List.range_succ_eq_map, List.map_cons, List.map_map]
    simp only [expectedWaits, Nat.add_zero]
    rw [ih (attempt + 1)]
    congr 1
    exact listMapCongr (fun k _ => by simp [Function.comp, harith k])

theorem lastCauseFrom_const (outcomes : Nat → HttpAttempt) (c : Cause) :
    ∀ (r attempt : Nat) (acc : Option Cause), 0 < r →
      (∀ i, attempt ≤ i → i < attempt + r → causeOf (outcomes i) = some c) →
      lastCauseFrom outcomes attempt r acc = some c := by
  intro r
  induction r with
  | zero => intro attempt acc h0 _; omega
  | succ r ih =>
    intro attempt acc _ h
    rcases Nat.eq_zero_or_pos r with hr | hr
    · subst hr
      simp [lastCauseFrom, h attempt (le_refl _) (by omega)]
    · simp only [lastCauseFrom, h attempt (le_refl _) (by omega)]
      exact ih (attempt + 1) _ hr (fun i h1 h2 => h i (by omega) (by omega))

theorem lastCauseFrom_none (outcomes : Nat → HttpAttempt) :
    ∀ (r attempt : Nat) (acc : Option Cause),
      (∀ i, attempt ≤ i → i < attempt + r → causeOf (outcomes i) = none) →
      lastCauseFrom outcomes attempt r acc = acc := by
  intro r
  induction r with
  | zero => intro attempt acc _; rfl
  | succ r ih =>
    intro attempt acc h
    simp only [lastCauseFrom, h attempt (le_refl _) (by omega)]
    exact ih (attempt + 1) _ (fun i h1 h2 => h i (by omega) (by omega))

/-- C10: for every response sequence in which all MAX_RETRIES (6) attempts fail
(429, 4xx/5xx or transport fault), request_with_retry performs exactly 6 waits,
one per attempt and determined by that attempt (so the wait after the 6th,
final attempt is included), issues exactly 6 requests (none after the last
wait), and then raises the terminal error. -/
theorem C10_final_failed_attempt_sleeps (outcomes : Nat → HttpAttempt)
    (h : ∀ i, 1 ≤ i → i ≤ MAX_RETRIES → isFailure (outcomes i)) :
    (request_with_retry outcomes).waits = expectedWaits outcomes 1 MAX_RETRIES ∧
    (request_with_retry outcomes).waits.length = MAX_RETRIES ∧
    (request_with_retry outcomes).attemptsMade = MAX_RETRIES ∧
    (request_with_retry outcomes).result
      = .error (lastCauseFrom outcomes 1 MAX_RETRIES none) := by
  have hall : ∀ i, 1 ≤ i → i < 1 + MAX_RETRIES → isFailure (outcomes i) :=
    fun i h1 h2 => h i h1 (by omega)
  rw [request_with_retry, rwrGo_allFail outcomes MAX_RETRIES 1 none hall]
  exact ⟨rfl, expectedWaits_length _ _ _, rfl, rfl⟩

/-- Witness for C10 at the concrete sequence whose every attempt is a transport
fault. -/
theorem C10_witness :
    (request_with_retry (fun _ => HttpAttempt.exc)).waits
        = expectedWaits (fun _ => HttpAttempt.exc) 1 MAX_RETRIES ∧
    (request_with_retry (fun _ => HttpAttempt.exc)).waits.length = MAX_RETRIES ∧
    (request_with_retry (fun _ => HttpAttempt.exc)).attemptsMade = MAX_RETRIES ∧
    (request_with_retry (fun _ => HttpAttempt.exc)).result
      = .error (lastCauseFrom (fun _ => HttpAttempt.exc) 1 MAX_RETRIES none) :=
  C10_final_failed_attempt_sleeps (fun _ => HttpAttempt.exc) (fun _ _ _ => True.intro)

/-- C2 counterexample: on the sequence whose every attempt returns HTTP 401,
request_with_retry issues 6 attempts with 6 backoff waits, not one attempt with
no wait; the 401 RuntimeError is caught by the blanket except clause and
retried like any other failure. -/
theorem C2_counterexample :
    (request_with_retry (fun _ => HttpAttempt.resp 401 none)).attemptsMade = 6 ∧
    (request_with_retry (fun _ => HttpAttempt.resp 401 none)).waits
      = [.backoffW 1, .backoffW 2, .backoffW 3, .backoffW 4, .backoffW 5, .backoffW 6] ∧
    (request_with_retry (fun _ => HttpAttempt.resp 401 none)).result
      = .error (some .unauthorized) :=
  ⟨rfl, rfl, rfl⟩

/-- C2 amended: for every response sequence whose first MAX_RETRIES attempts
all return HTTP 401 (no Retry-After), request_with_retry performs all 6
attempts, waits a computed backoff after each of them, and only then raises
the terminal retries-exhausted error carrying the unauthorized cause. -/
theorem C2_amended (outcomes : Nat → HttpAttempt)
    (h : ∀ i, 1 ≤ i → i ≤ MAX_RETRIES → outcomes i = .resp 401 none) :
    request_with_retry outcomes
      = ⟨(List.range MAX_RETRIES).map (fun k => Wait.backoffW (1 + k)), MAX_RETRIES,
          .error (some .unauthorized)⟩ := by
  have hall : ∀ i, 1 ≤ i → i < 1 + MAX_RETRIES → isFailure (outcomes i) := by
    intro i h1 h2
    rw [h i h1 (by omega)]
    exact Or.inr (by omega)
  have hw : expectedWaits outcomes 1 MAX_RETRIES
      = (List.range MAX_RETRIES).map (fun k => Wait.backoffW (1 + k)) := by
    rw [expectedWaits_eq_map]
    apply listMapCongr
    intro k hk
    rw [List.mem_range] at hk
    rw [h (1 + k) (by omega) (by omega)]
    simp [waitOf]
  have hc : lastCauseFrom outcomes 1 MAX_RETRIES none = some Cause.unauthorized := by
    apply lastCauseFrom_const outcomes Cause.unauthorized MAX_RETRIES 1 none
      (by norm_num [MAX_RETRIES])
    intro i h1 h2
    rw [h i h1 (by omega)]
    simp [causeOf]
  rw [request_with_retry, rwrGo_allFail outcomes MAX_RETRIES 1 none hall, hw, hc]

/-- Witness for C2 amended at the all-401 sequence. -/
theorem C2_witness :
    request_with_retry (fun _ => HttpAttempt.resp 401 none)
      = ⟨(List.range MAX_RETRIES).map (fun k => Wait.backoffW (1 + k)), MAX_RETRIES,
          .error (some .unauthorized)⟩ :=
  C2_amended (fun _ => HttpAttempt.resp 401 none) (fun _ _ _ => rfl)

/-- C3 counterexample: on the sequence consisting entirely of 429 rate-limit
responses, the terminal error carries no cause at all (last_err stays None,
because the 429 branch records nothing), contradicting that it carries the
last observed underlying cause. -/
theorem C3_counterexample :
    (request_with_retry (fun _ => HttpAttempt.resp 429 none)).result = .error none ∧
    (request_with_retry (fun _ => HttpAttempt.resp 429 none)).attemptsMade = 6 ∧
    (request_with_retry (fun _ => HttpAttempt.resp 429 none)).waits
      = [.backoffW 1, .backoffW 2, .backoffW 3, .backoffW 4, .backoffW 5, .backoffW 6] :=
  ⟨rfl, rfl, rfl⟩

/-- C3 amended: when none of the MAX_RETRIES attempts succeeds, the terminal
error carries the last exception-raising cause observed (401, other 4xx/5xx,
or a transport fault); 429 rate-limit attempts record no cause, so a sequence
consisting entirely of 429 responses yields a terminal error carrying None. -/
theorem C3_amended (outcomes : Nat → HttpAttempt)
    (h : ∀ i, 1 ≤ i → i ≤ MAX_RETRIES → isFailure (outcomes i)) :
    (request_with_retry outcomes).result
        = .error (lastCauseFrom outcomes 1 MAX_RETRIES none) ∧
    ((∀ i, 1 ≤ i → i ≤ MAX_RETRIES → causeOf (outcomes i) = none) →
      (request_with_retry outcomes).result = .error none) := by
  have hall : ∀ i, 1 ≤ i → i < 1 + MAX_RETRIES → isFailure (outcomes i) :=
    fun i h1 h2 => h i h1 (by omega)
  constructor
  · rw [request_with_retry, rwrGo_allFail outcomes MAX_RETRIES 1 none hall]
  · intro hc
    rw [request_with_retry, rwrGo_allFail outcomes MAX_RETRIES 1 none hall,
      lastCauseFrom_none outcomes MAX_RETRIES 1 none
        (fun i h1 h2 => hc i h1 (by omega))]

/-- Witness for C3 amended at the all-429 sequence. -/
theorem C3_witness :
    (request_with_retry (fun _ => HttpAttempt.resp 429 none)).result
      = .error (lastCauseFrom (fun _ => HttpAttempt.resp 429 none) 1 MAX_RETRIES none) :=
  (C3_amended (fun _ => HttpAttempt.resp 429 none) (fun _ _ _ => Or.inl rfl)).1

/-- Simulated response sequence [429, 429, 200] with no Retry-After header. -/
def seq_429_429_200 : Nat → HttpAttempt :=
  fun n => if n ≤ 2 then .resp 429 none else .resp 200 none

/-- C5: on a 429 with a digit-string Retry-After header the wait is exactly
that many seconds in place of the computed backoff, and the attempt is
retried; on a 429 with a missing or non-digit header the wait is the computed
backoff for that attempt, and the attempt is retried; on the concrete sequence
[429, 429, 200] without Retry-After exactly two (backoff) waits occur and the
200 response is returned as the success of attempt 3. -/
theorem C5_retry_after_honoring :
    (∀ (outcomes : Nat → HttpAttempt) (attempt r : Nat) (lastErr : Option Cause)
        (s : List Char),
        outcomes attempt = .resp 429 (some s) → isDigitStr s = true →
        (rwrGo outcomes attempt (r + 1) lastErr).waits.head?
            = some (.retryAfterW (strToNat s)) ∧
        (rwrGo outcomes attempt (r + 1) lastErr).result
            = (rwrGo outcomes (attempt + 1) r lastErr).result)
  ∧ (∀ (outcomes : Nat → HttpAttempt) (attempt r : Nat) (lastErr : Option Cause)
        (ra : Option (List Char)),
        outcomes attempt = .resp 429 ra → (∀ s, ra = some s → isDigitStr s = false) →
        (rwrGo outcomes attempt (r + 1) lastErr).waits.head? = some (.backoffW attempt) ∧
        (rwrGo outcomes attempt (r + 1) lastErr).result
            = (rwrGo outcomes (attempt + 1) r lastErr).result)
  ∧ request_with_retry seq_429_429_200
      = ⟨[.backoffW 1, .backoffW 2], 3, .ok (3, 200)⟩ := by
  refine ⟨?_, ?_, rfl⟩
  · intro outcomes attempt r lastErr s hout hd
    constructor <;> simp [rwrGo, hout, hd]
  · intro outcomes attempt r lastErr ra hout hra
    cases ra with
    | none => constructor <;> simp [rwrGo, hout]
    | some s => constructor <;> simp [rwrGo, hout, hra s rfl]

/-- Witness for C5 at a concrete 429 response carrying Retry-After 5. -/
theorem C5_witness :
    (rwrGo (fun _ => HttpAttempt.resp 429 (some ['5'])) 1 1 none).waits.head?
      = some (Wait.retryAfterW (strToNat ['5'])) :=
  (C5_retry_after_honoring.1 (fun _ => HttpAttempt.resp 429 (some ['5'])) 1 0 none ['5']
    rfl rfl).1

/-- C4 counterexample: at attempt 6 with jitter fraction 1/4, compute_backoff
returns the 60-second cap, which is strictly below 1.25 times the capped base
delay (1.25 * 60 = 75), so the claimed lower bound fails. -/
theorem C4_counterexample :
    compute_backoff (1/4) 6 = 60 ∧
    ¬(5/4 * min MAX_BACKOFF_SECONDS (BASE_BACKOFF_SECONDS * 2 ^ (6 - 1))
        ≤ compute_backoff (1/4) 6) := by
  constructor
  · norm_num [compute_backoff, MAX_BACKOFF_SECONDS, BASE_BACKOFF_SECONDS, min_def]
  · norm_num [compute_backoff, MAX_BACKOFF_SECONDS, BASE_BACKOFF_SECONDS, min_def]

/-- C4 amended: for every attempt number n with 1 ≤ n and every jitter
fraction in [1/4, 3/4], compute_backoff is at most maxDelay (60), and is at
least the minimum of maxDelay and 1.25 times the capped base delay
min(maxDelay, baseDelay * 2^(n-1)); the unconditioned 1.25-times lower bound
holds only until the cap bites. -/
theorem C4_amended (j : Rat) (n : Nat) (h1 : 1/4 ≤ j) (h2 : j ≤ 3/4) (hn : 1 ≤ n) :
    compute_backoff j n ≤ MAX_BACKOFF_SECONDS ∧
    min MAX_BACKOFF_SECONDS
        (5/4 * min MAX_BACKOFF_SECONDS (BASE_BACKOFF_SECONDS * 2 ^ (n - 1)))
      ≤ compute_backoff j n := by
  have hb0 : (0:Rat) ≤ min MAX_BACKOFF_SECONDS (BASE_BACKOFF_SECONDS * 2 ^ (n - 1)) := by
    apply le_min
    · norm_num [MAX_BACKOFF_SECONDS]
    · simp only [BASE_BACKOFF_SECONDS]
      positivity
  constructor
  · exact min_le_left _ _
  · simp only [compute_backoff]
    set base := min MAX_BACKOFF_SECONDS (BASE_BACKOFF_SECONDS * 2 ^ (n - 1)) with hbase
    have hj : 1/4 * base ≤ j * base := mul_le_mul_of_nonneg_right h1 hb0
    have h54 : 5/4 * base ≤ base + j * base := by linarith
    exact min_le_min (le_refl MAX_BACKOFF_SECONDS) h54

/-- Witness for C4 amended at attempt 3 with jitter fraction 1/2. -/
theorem C4_witness :
    compute_backoff (1/2) 3 ≤ MAX_BACKOFF_SECONDS ∧
    min MAX_BACKOFF_SECONDS
        (5/4 * min MAX_BACKOFF_SECONDS (BASE_BACKOFF_SECONDS * 2 ^ (3 - 1)))
      ≤ compute_backoff (1/2) 3 :=
  C4_amended (1/2) 3 (by norm_num) (by norm_num) (by norm_num)

/-- FUELS = ["GASOLINA", "ETANOL", "GNV", "DIESEL"]. -/
def FUELS : List String := ["GASOLINA", "ETANOL", "GNV", "DIESEL"]

/-- The category loop of main(): for idx, anp in enumerate(FUELS, start=1), a
try/finally block (with no except clause) around collect_one_page_per_fuel,
whose finally sleeps when idx < len(FUELS).  Inputs are the per-category
outcomes of collect_one_page_per_fuel (a manifest, abstracted to a Nat, or the
exception it raised); the result is the final value of the runs list if the
loop completes, or the propagated exception, paired with the number of pacing
sleeps performed. -/
def mainRuns (total : Nat) : Nat → List (Except String Nat) → Except String (List Nat) × Nat
  | _, [] => (.ok [], 0)
  | idx, o :: rest =>
    let sleeps := if idx < total then 1 else 0
    match o with
    | .error e => (.error e, sleeps)
    | .ok m =>
      let t := mainRuns total (idx + 1) rest
      (t.1.map (fun ms => m :: ms), sleeps + t.2)

/-- The overall manifest write of main(): overall_manifest.json is written
after the loop, so it exists exactly when the loop raised no exception, and
then lists the manifests of the completed categories. -/
def main_overall (outcomes : List (Except String Nat)) : Option (List Nat) :=
  match (mainRuns FUELS.length 1 outcomes).1 with
  | .ok ms => some ms
  | .error _ => none

theorem mainRuns_okPrefix (e : String) (rest : List (Except String Nat)) :
    ∀ (ms : List Nat) (idx total : Nat),
      (mainRuns total idx (ms.map Except.ok ++ .error e :: rest)).1 = .error e := by
  intro ms
  induction ms with
  | nil =>
    intro idx total
    simp [mainRuns]
  | cons m ms ih =>
    intro idx total
    simp only [List.map_cons, List.cons_append, mainRuns, List.append_eq]
    rw [ih (idx + 1) total]
    rfl

theorem mainRuns_allOk :
    ∀ (ms : List Nat) (idx total : Nat),
      (mainRuns total idx (ms.map Except.ok)).1 = .ok ms := by
  intro ms
  induction ms with
  | nil => intro idx total; rfl
  | cons m ms ih =>
    intro idx total
    simp only [List.map_cons, mainRuns]
    rw [ih (idx + 1) total]
    rfl

/-- C1 counterexample: when the first category fails and the remaining three
succeed, the loop propagates the exception: the pacing sleep still runs, but
no later category is processed and the overall manifest is never written
(main_overall is none instead of some [2, 3, 4]). -/
theorem C1_counterexample :
    main_overall [.error "boom", .ok 2, .ok 3, .ok 4] = none ∧
    (mainRuns FUELS.length 1 [.error "boom", .ok 2, .ok 3, .ok 4]).2 = 1 :=
  ⟨rfl, rfl⟩

/-- C1 amended: a fatal error in one category aborts the whole run, not just
that category: the finally clause still performs the pacing sleep when the
failed category is not the last one, but no subsequent category runs on any
input extending the failure, and the overall manifest is not written whenever
any category fails; it is written with all manifests exactly when every
category completes. -/
theorem C1_amended :
    (∀ (total idx : Nat) (e : String) (rest : List (Except String Nat)),
        mainRuns total idx (.error e :: rest)
          = (.error e, if idx < total then 1 else 0))
  ∧ (∀ (ms : List Nat) (e : String) (rest : List (Except String Nat)),
        main_overall (ms.map Except.ok ++ .error e :: rest) = none)
  ∧ (∀ ms : List Nat, main_overall (ms.map Except.ok) = some ms) := by
  refine ⟨?_, ?_, ?_⟩
  · intro total idx e rest
    simp [mainRuns]
  · intro ms e rest
    rw [main_overall, mainRuns_okPrefix e rest ms 1 FUELS.length]
  · intro ms
    rw [main_overall, mainRuns_allOk ms 1 FUELS.length]

/-- Overall manifest timestamps: finished_at_utc and the collected_at_utc of
the aggregated runs, as positions of a monotone clock read by utc_now_iso. -/
structure OverallManifestT where
  finished_at_utc : Nat
  runs_collected_at : List Nat
deriving DecidableEq

/-- The utc_now_iso call order of main(): the overall dict (and with it
finished_at_utc) is built BEFORE the category loop, so the k-th category
manifest records the (k+1)-th clock reading. -/
def main_timestamps (clock : Nat → Nat) (numFuels : Nat) : OverallManifestT :=
  { finished_at_utc := clock 0
    runs_collected_at := (List.range numFuels).map (fun i => clock (i + 1)) }

/-- C9: with a strictly increasing clock and the four configured fuels, the
finish timestamp of the overall manifest is recorded before every
per-category collection timestamp, hence strictly earlier than each of them,
contradicting that it is no earlier than the timestamps it aggregates. -/
theorem C9_code_divergence :
    (main_timestamps (fun n => n) 4).finished_at_utc = 0 ∧
    (main_timestamps (fun n => n) 4).runs_collected_at = [1, 2, 3, 4] ∧
    ∀ t ∈ (main_timestamps (fun n => n) 4).runs_collected_at,
      (main_timestamps (fun n => n) 4).finished_at_utc < t := by
  refine ⟨rfl, rfl, ?_⟩
  intro t ht
  fin_cases ht <;> norm_num [main_timestamps]

/-- Parsed JSON values as produced by r.json(); numbers are modelled as
integers (the numeric fields the script touches are counters). -/
inductive JVal
  | null
  | bool (b : Bool)
  | num (n : Int)
  | str (s : String)
  | arr (xs : List JVal)
  | obj (fields : List (String × JVal))

/-- Python truthiness of a JSON value: None, False, 0, empty string, empty
list and empty dict are falsy. -/
def jTruthy : JVal → Bool
  | .null => false
  | .bool b => b
  | .num n => n != 0
  | .str s => !s.data.isEmpty
  | .arr xs => !xs.isEmpty
  | .obj fs => !fs.isEmpty

/-- data.get(key): first binding of the key, if any. -/
def jGet (fields : List (String × JVal)) (key : String) : Option JVal :=
  (fields.find? (fun kv => kv.1 == key)).map (fun kv => kv.2)

/-- isinstance(v, list). -/
def JVal.isArr : JVal → Bool
  | .arr _ => true
  | _ => false

/-- int(str) on a decimal digit string with optional sign (the subset the
script can meet); other strings raise ValueError. -/
def pyIntOfString (s : String) : Except String Int :=
  let core : List Char → Except String Int := fun cs =>
    if cs.isEmpty || !cs.all Char.isDigit then .error "ValueError: int()"
    else .ok (Int.ofNat (strToNat cs))
  match s.toList with
  | '-' :: cs => (core cs).map (fun n => -n)
  | '+' :: cs => core cs
  | cs => core cs

/-- int(v) over a JSON value: numbers pass through, booleans become 0/1,
digit strings parse, everything else raises TypeError. -/
def pyInt : JVal → Except String Int
  | .num n => .ok n
  | .bool b => .ok (if b then 1 else 0)
  | .str s => pyIntOfString s
  | _ => .error "TypeError: int() argument"

/-- len(v): defined for strings, lists and dicts; raises TypeError otherwise. -/
def pyLen : JVal → Except String Nat
  | .str s => .ok s.length
  | .arr xs => .ok xs.length
  | .obj fs => .ok fs.length
  | _ => .error "TypeError: object has no len"

/-- The expression data.get("resultado") or [], which the source evaluates in
three places: a missing or falsy resultado field is coerced to the empty
list. -/
def resultado_or (data : List (String × JVal)) : JVal :=
  match jGet data "resultado" with
  | some v => if jTruthy v then v else .arr []
  | none => .arr []

/-- The response-processing part of collect_one_page_per_fuel, from the parsed
JSON body to the rows passed to append_jsonl.  Steps, in source order: the
sanity-check conversions int(data.get("totalPaginas", 1)),
int(data.get("totalRegistros", 0)) and int(data.get("registrosdaPagina",
len(data.get("resultado") or []))) whose default argument is evaluated
eagerly; then results = data.get("resultado") or [] and the isinstance check
raising RuntimeError when results is not a list; then page_to_rows, which
iterates data.get("resultado") or [] and emits one wrapped row per item (the
raw item is returned here for each row).  An error is raised before any row
is written. -/
def collect_process (data : List (String × JVal)) : Except String (List JVal) := do
  let _totalPages ← pyInt ((jGet data "totalPaginas").getD (.num 1))
  let _totalRegistros ← pyInt ((jGet data "totalRegistros").getD (.num 0))
  let defaultLen ← pyLen (resultado_or data)
  let _pageCount ← pyInt ((jGet data "registrosdaPagina").getD (.num (Int.ofNat defaultLen)))
  match resultado_or data with
  | .arr xs => return xs
  | _ => .error "Unexpected response format: resultado is not a list."

theorem collect_process_single (v : JVal) :
    collect_process [("resultado", v)]
      = if jTruthy v then
          (pyLen v).bind (fun dl =>
            (pyInt (JVal.num (Int.ofNat dl))).bind (fun _ =>
              match v with
              | .arr xs => .ok xs
              | _ => .error "Unexpected response format: resultado is not a list."))
        else .ok [] := by
  have hr : resultado_or [("resultado", v)]
      = (if jTruthy v then v else JVal.arr []) := rfl
  cases hb : jTruthy v with
  | false =>
    have hrv : resultado_or [("resultado", v)] = JVal.arr [] := by
      rw [hr, hb]; rfl
    unfold collect_process
    rw [hrv]
    rfl
  | true =>
    have hrv : resultado_or [("resultado", v)] = v := by
      rw [hr, hb]; rfl
    unfold collect_process
    rw [hrv]
    rfl

/-- C6 counterexample: a body whose resultado field is null (and likewise one
whose resultado field is the empty string) is coerced to the empty list by the
`or []` expressions, so collection succeeds with zero rows instead of raising
a fatal error, although the field is not array-typed. -/
theorem C6_counterexample :
    collect_process [("resultado", JVal.null)] = .ok [] ∧
    collect_process [("resultado", JVal.str "")] = .ok [] ∧
    JVal.isArr JVal.null = false ∧
    JVal.isArr (JVal.str "") = false :=
  ⟨rfl, rfl, rfl, rfl⟩

/-- C6 amended: for a body whose resultado field is v (other fields absent):
if v is truthy and not a list, collection raises a fatal error before any row
is written; if v is a list, collection succeeds and writes exactly one row per
item; if v is falsy (null, False, 0, empty string, empty list or empty dict),
the `or []` coercion turns it into the empty list and collection succeeds
with zero rows. -/
theorem C6_amended (v : JVal) :
    (jTruthy v = true → JVal.isArr v = false →
        ∃ e, collect_process [("resultado", v)] = .error e) ∧
    (∀ xs, v = .arr xs → collect_process [("resultado", v)] = .ok xs) ∧
    (jTruthy v = false → collect_process [("resultado", v)] = .ok []) := by
  refine ⟨?_, ?_, ?_⟩
  · intro ht ha
    rw [collect_process_single v, if_pos ht]
    cases v with
    | null => simp [jTruthy] at ht
    | bool b =>
      cases b with
      | false => simp [jTruthy] at ht
      | true => exact ⟨_, rfl⟩
    | num n => exact ⟨_, rfl⟩
    | str s => exact ⟨_, rfl⟩
    | arr xs => simp [JVal.isArr] at ha
    | obj fs => exact ⟨_, rfl⟩
  · intro xs hxs
    subst hxs
    cases xs with
    | nil => rfl
    | cons x xs => rfl
  · intro hf
    cases v with
    | null => rfl
    | bool b => cases b with
      | false => rfl
      | true => simp [jTruthy] at hf
    | num n =>
      have hn : n = 0 := by
        by_contra hc
        simp [jTruthy, bne, hc] at hf
      subst hn; rfl
    | str s =>
      have hs : s = "" := by
        cases s with
        | mk l => cases l with
          | nil => rfl
          | cons c cs => simp [jTruthy] at hf
      subst hs; rfl
    | arr xs =>
      cases xs with
      | nil => rfl
      | cons x xs => simp [jTruthy] at hf
    | obj fs =>
      cases fs with
      | nil => rfl
      | cons f fs => simp [jTruthy] at hf

/-- Witness for C6 amended at the truthy non-list value "abc". -/
theorem C6_witness :
    ∃ e, collect_process [("resultado", JVal.str "abc")] = Except.error e :=
  (C6_amended (JVal.str "abc")).1 rfl rfl

/-! Regular-expression engine.  The five CSRF patterns, the signed-token
pattern and the script-src pattern of the source are sequences of literal
characters, character classes and greedy counted classes with at most one
capture group, so a pattern is embedded as a list of tokens and matched with
leftmost-greedy backtracking, reproducing the Python re semantics on these
patterns. -/

/-- One token of a pattern: a single-character class, a greedy star or plus of
a class, a greedy optional class, or the capture group (a greedy plus of a
class whose matched text is group 1). -/
inductive PTok
  | one (p : Char → Bool)
  | many0 (p : Char → Bool)
  | many1 (p : Char → Bool)
  | opt (p : Char → Bool)
  | grp (p : Char → Bool)

/-- Length of the maximal prefix satisfying the class. -/
def takeCount (p : Char → Bool) : List Char → Nat
  | [] => 0
  | c :: s => if p c then takeCount p s + 1 else 0

/-- The list hi, hi-1, ..., lo (empty when hi < lo): greedy candidate counts,
longest first. -/
def descRange (lo hi : Nat) : List Nat :=
  if hi < lo then [] else (List.range (hi - lo + 1)).map (fun k => hi - k)

/-- Match a token list against a prefix of the input with backtracking,
returning the captured group (if the pattern has one) and the number of
characters consumed; greedy quantifiers try the longest candidate first. -/
def matchToks : List PTok → List Char → Option (Option (List Char) × Nat)
  | [], _ => some (none, 0)
  | PTok.one p :: tk, s =>
    match s with
    | [] => none
    | c :: s2 =>
      if p c then (matchToks tk s2).map (fun gn => (gn.1, gn.2 + 1)) else none
  | PTok.many0 p :: tk, s =>
    (descRange 0 (takeCount p s)).findSome? (fun k =>
      (matchToks tk (s.drop k)).map (fun gn => (gn.1, k + gn.2)))
  | PTok.many1 p :: tk, s =>
    (descRange 1 (takeCount p s)).findSome? (fun k =>
      (matchToks tk (s.drop k)).map (fun gn => (gn.1, k + gn.2)))
  | PTok.opt p :: tk, s =>
    (descRange 0 (min 1 (takeCount p s))).findSome? (fun k =>
      (matchToks tk (s.drop k)).map (fun gn => (gn.1, k + gn.2)))
  | PTok.grp p :: tk, s =>
    (descRange 1 (takeCount p s)).findSome? (fun k =>
      (matchToks tk (s.drop k)).map (fun gn => (some (s.take k), k + gn.2)))

/-- re.search: try match positions left to right; on success return the
capture, the suffix at which the match starts, and the consumed length. -/
def searchAux (toks : List PTok) : List Char → Option (Option (List Char) × List Char × Nat)
  | [] => (matchToks toks []).map (fun gn => (gn.1, ([] : List Char), gn.2))
  | c :: s2 =>
    match matchToks toks (c :: s2) with
    | some gn => some (gn.1, c :: s2, gn.2)
    | none => searchAux toks s2

/-- m.group(1) of the leftmost match, when the pattern has a capture group. -/
def searchCapture (toks : List PTok) (s : List Char) : Option (List Char) :=
  (searchAux toks s).bind (fun r => r.1)

/-- m.group(0) of the leftmost match: the full matched text. -/
def searchFull (toks : List PTok) (s : List Char) : Option (List Char) :=
  (searchAux toks s).map (fun r => r.2.1.take r.2.2)

/-- re.findall with one capture group: all non-overlapping leftmost matches in
order; fuel bounds the recursion (every pattern used consumes at least one
character per match). -/
def findAllGo (toks : List PTok) : Nat → List Char → List (List Char)
  | 0, _ => []
  | fuel + 1, s =>
    match searchAux toks s with
    | none => []
    | some (g, rest, n) =>
      let captured := match g with | some c => [c] | none => []
      captured ++ findAllGo toks fuel (rest.drop (max n 1))

def findAllCaptures (toks : List PTok) (s : List Char) : List (List Char) :=
  findAllGo toks (s.length + 1) s

/-- Character classes of the source patterns. -/
def isQuoteCh (c : Char) : Bool := c == '"' || c == Char.ofNat 39

def notQuote (c : Char) : Bool := !(isQuoteCh c)

def notGt (c : Char) : Bool := c != '>'

/-- Python regex whitespace class, ASCII part. -/
def isSpaceCh (c : Char) : Bool :=
  c == ' ' || c == Char.ofNat 9 || c == Char.ofNat 10 || c == Char.ofNat 13 ||
  c == Char.ofNat 11 || c == Char.ofNat 12

def colonOrEq (c : Char) : Bool := c == ':' || c == '='

def underscoreOrDash (c : Char) : Bool := c == '_' || c == '-'

/-- The class A-Za-z0-9_- of the signed-token pattern. -/
def tokenChar (c : Char) : Bool :=
  (c.isUpper || c.isLower || c.isDigit) || c == '_' || c == '-'

/-- A literal word under re.IGNORECASE (w given in lowercase). -/
def litCI (w : String) : List PTok :=
  w.data.map (fun x => PTok.one (fun c => c.toLower == x))

/-- A case-sensitive literal word. -/
def litCS (w : String) : List PTok :=
  w.data.map (fun x => PTok.one (fun c => c == x))

/-- Pattern 1 of extract_csrf_from_html (IGNORECASE): an input element named
csrf_token, capturing its value attribute. -/
def csrfPat1 : List PTok :=
  litCI "<input" ++ [PTok.many1 notGt] ++ litCI "name=" ++ [PTok.one isQuoteCh]
    ++ litCI "csrf_token" ++ [PTok.one isQuoteCh, PTok.many1 notGt]
    ++ litCI "value=" ++ [PTok.one isQuoteCh, PTok.grp notQuote, PTok.one isQuoteCh]

/-- Pattern 2 (IGNORECASE): a meta element named csrf-token, capturing its
content attribute. -/
def csrfPat2 : List PTok :=
  litCI "<meta" ++ [PTok.many1 notGt] ++ litCI "name=" ++ [PTok.one isQuoteCh]
    ++ litCI "csrf-token" ++ [PTok.one isQuoteCh, PTok.many1 notGt]
    ++ litCI "content=" ++ [PTok.one isQuoteCh, PTok.grp notQuote, PTok.one isQuoteCh]

/-- The common tail of patterns 3 to 5: an optional quote, optional spaces, a
colon or equals sign, optional spaces, then a quoted captured value. -/
def kvTail : List PTok :=
  [PTok.opt isQuoteCh, PTok.many0 isSpaceCh, PTok.one colonOrEq, PTok.many0 isSpaceCh,
   PTok.one isQuoteCh, PTok.grp notQuote, PTok.one isQuoteCh]

/-- Pattern 3 (IGNORECASE): an x-csrftoken key/value assignment. -/
def csrfPat3 : List PTok := litCI "x-csrftoken" ++ kvTail

/-- Pattern 4 (IGNORECASE): a csrf token key with optional underscore or dash
separator. -/
def csrfPat4 : List PTok :=
  litCI "csrf" ++ [PTok.opt underscoreOrDash] ++ litCI "token" ++ kvTail

/-- Pattern 5 (IGNORECASE): a csrfToken key/value assignment. -/
def csrfPat5 : List PTok := litCI "csrftoken" ++ kvTail

/-- The ordered pattern list of extract_csrf_from_html. -/
def CSRF_PATTERNS : List (List PTok) := [csrfPat1, csrfPat2, csrfPat3, csrfPat4, csrfPat5]

/-- SIGNED_TOKEN_RE (case sensitive): (Im[A-Za-z0-9_-]+)\.([A-Za-z0-9_-]+)\.([A-Za-z0-9_-]+);
the source uses its group(0), the full three-segment match. -/
def SIGNED_TOKEN_RE : List PTok :=
  litCS "Im" ++ [PTok.many1 tokenChar, PTok.one (fun c => c == '.'), PTok.many1 tokenChar,
    PTok.one (fun c => c == '.'), PTok.many1 tokenChar]

/-- extract_csrf_from_html: try the five patterns in order, returning the
first group(1); otherwise fall back to the full signed-token match; otherwise
None. -/
def extract_csrf_from_html (html : List Char) : Option (List Char) :=
  (CSRF_PATTERNS.findSome? (fun p => searchCapture p html)).orElse
    (fun _ => searchFull SIGNED_TOKEN_RE html)

/-- extract_csrf_from_js_text: the full signed-token match, if any. -/
def extract_csrf_from_js_text (text : List Char) : Option (List Char) :=
  searchFull SIGNED_TOKEN_RE text

/-- BASE_URL of the target service. -/
def BASE_URL : String := "https://precodahora.ba.gov.br/produtos/"

/-- The script src attribute pattern of find_script_srcs (IGNORECASE), with
its one capture group. -/
def SCRIPT_SRC_PAT : List PTok :=
  litCI "<script" ++ [PTok.many1 notGt] ++ litCI "src=" ++
    [PTok.one isQuoteCh, PTok.grp notQuote, PTok.one isQuoteCh]

/-- urljoin(BASE_URL, s) for the fixed base URL: absolute references pass
through, protocol-relative and root-relative references are resolved against
the base scheme and authority, and other references are resolved against the
base directory (dot-segment normalization, which none of the claims touch, is
omitted). -/
def urljoinBase (s : String) : String :=
  if s.startsWith "http://" || s.startsWith "https://" then s
  else if s.startsWith "//" then "https:" ++ s
  else if s.startsWith "/" then "https://precodahora.ba.gov.br" ++ s
  else BASE_URL ++ s

/-- The seen-set loop of find_script_srcs: order-preserving dedup keeping
first occurrences. -/
def dedupGo (seen : List String) : List String → List String
  | [] => []
  | u :: rest =>
    if seen.contains u then dedupGo seen rest else u :: dedupGo (u :: seen) rest

/-- find_script_srcs: every script src attribute value of the page,
absolute-resolved against BASE_URL, deduplicated preserving order. -/
def find_script_srcs (html : List Char) : List String :=
  dedupGo [] ((findAllCaptures SCRIPT_SRC_PAT html).map (fun c => urljoinBase (String.mk c)))

/-- One iteration of the JS-bundle scan loop of bootstrap_and_find_csrf:
fetch the URL; skip it (continue) unless the status is 200; otherwise attempt
the signed-token extraction on the body. -/
def scanScript (fetch : String → Nat × List Char) (url : String) : Option (List Char) :=
  let r := fetch url
  if r.1 = 200 then extract_csrf_from_js_text r.2 else none

/-- bootstrap_and_find_csrf, given the landing page body (the initial GET and
the debug snapshot write are effectful; the GET is assumed to have succeeded,
as raise_for_status otherwise aborts) and the fetch behavior of the session:
markup extraction first; if that fails, scan script_urls[:25] sequentially
and return the first token found; if none, raise RuntimeError. -/
def bootstrap_and_find_csrf (html : List Char) (fetch : String → Nat × List Char) :
    Except String (List Char) :=
  match extract_csrf_from_html html with
  | some csrf => .ok csrf
  | none =>
    match ((find_script_srcs html).take 25).findSome? (scanScript fetch) with
    | some token => .ok token
    | none => .error "CSRF token not found in HTML or JS bundles."

/-- C7: bootstrap first attempts markup extraction on the landing body and
returns its token when found; otherwise it consults only the first 25
script URLs (absolute-resolved, in page order): it succeeds with token t
exactly when some URL in that bounded prefix yields t with every earlier one
yielding nothing (first match wins), and it raises the terminal error exactly
when every URL in the bounded prefix yields nothing. -/
theorem C7_bootstrap_two_tier (html : List Char) (fetch : String → Nat × List Char) :
    (∀ t, extract_csrf_from_html html = some t →
        bootstrap_and_find_csrf html fetch = .ok t)
    ∧ (extract_csrf_from_html html = none →
        (∀ t, bootstrap_and_find_csrf html fetch = .ok t →
            ∃ l1 u l2, (find_script_srcs html).take 25 = l1 ++ u :: l2 ∧
              scanScript fetch u = some t ∧ ∀ w ∈ l1, scanScript fetch w = none)
        ∧ (bootstrap_and_find_csrf html fetch
              = .error "CSRF token not found in HTML or JS bundles."
            ↔ ∀ u ∈ (find_script_srcs html).take 25, scanScript fetch u = none)) := by
  constructor
  · intro t ht
    rw [bootstrap_and_find_csrf, ht]
  · intro h0
    refine ⟨?_, ?_, ?_⟩
    · intro t ht
      rw [bootstrap_and_find_csrf, h0] at ht
      cases hfs : ((find_script_srcs html).take 25).findSome? (scanScript fetch) with
      | some w =>
        rw [hfs] at ht
        cases ht
        exact List.findSome?_eq_some_iff.mp hfs
      | none =>
        rw [hfs] at ht
        cases ht
    · intro he
      rw [bootstrap_and_find_csrf, h0] at he
      cases hfs : ((find_script_srcs html).take 25).findSome? (scanScript fetch) with
      | some w =>
        rw [hfs] at he
        cases he
      | none => exact List.findSome?_eq_none_iff.mp hfs
    · intro hall
      rw [bootstrap_and_find_csrf, h0, List.findSome?_eq_none_iff.mpr hall]

/-- Witness for C7 at a page with no token and no script assets. -/
theorem C7_witness :
    bootstrap_and_find_csrf "nothing here".data (fun _ => (200, []))
      = .error "CSRF token not found in HTML or JS bundles." :=
  ((C7_bootstrap_two_tier "nothing here".data (fun _ => (200, []))).2 rfl).2.mpr
    (by
      intro u hu
      rw [show (find_script_srcs "nothing here".data).take 25 = [] from rfl] at hu
      cases hu)

/-- C8: extract_csrf_from_html is total (never throws, pure) and returns:
the captured value of the first pattern, in the fixed order, that matches the
markup; else the full generic signed-token match; else None, and it returns
None exactly when no pattern and no signed-token shape matches. -/
theorem C8_token_extractor (html : List Char) :
    (∀ v, extract_csrf_from_html html = some v →
        (∃ l1 p l2, CSRF_PATTERNS = l1 ++ p :: l2 ∧ searchCapture p html = some v ∧
            ∀ q ∈ l1, searchCapture q html = none)
        ∨ ((∀ p ∈ CSRF_PATTERNS, searchCapture p html = none) ∧
            searchFull SIGNED_TOKEN_RE html = some v))
    ∧ (extract_csrf_from_html html = none ↔
        (∀ p ∈ CSRF_PATTERNS, searchCapture p html = none) ∧
        searchFull SIGNED_TOKEN_RE html = none) := by
  constructor
  · intro v hv
    rw [extract_csrf_from_html] at hv
    cases hfs : CSRF_PATTERNS.findSome? (fun p => searchCapture p html) with
    | some w =>
      rw [hfs] at hv
      have hv2 : w = v := by
        have h3 : some w = some v := hv
        injection h3
      left
      obtain ⟨l1, p, l2, hdec, hp, hnone⟩ := List.findSome?_eq_some_iff.mp hfs
      exact ⟨l1, p, l2, hdec, by rw [hp, hv2], hnone⟩
    | none =>
      rw [hfs] at hv
      right
      exact ⟨List.findSome?_eq_none_iff.mp hfs, hv⟩
  · constructor
    · intro h0
      rw [extract_csrf_from_html] at h0
      cases hfs : CSRF_PATTERNS.findSome? (fun p => searchCapture p html) with
      | some w =>
        rw [hfs] at h0
        exact absurd (show some w = none from h0) (by simp)
      | none =>
        rw [hfs] at h0
        exact ⟨List.findSome?_eq_none_iff.mp hfs, h0⟩
    · intro hps
      rw [extract_csrf_from_html, List.findSome?_eq_none_iff.mpr hps.1]
      exact hps.2

/-- Witness for C8 at a concrete page with no token shape. -/
theorem C8_witness :
    extract_csrf_from_html "nothing here".data = none ↔
      (∀ p ∈ CSRF_PATTERNS, searchCapture p "nothing here".data = none) ∧
      searchFull SIGNED_TOKEN_RE "nothing here".data = none :=
  (C8_token_extractor "nothing here".data).2

/-- Witness for C1 at a concrete outcome list whose second category fails. -/
theorem C1_witness :
    main_overall ([1].map Except.ok ++ .error "x" :: [.ok 3, .ok 4]) = none :=
  C1_amended.2.1 [1] "x" [.ok 3, .ok 4]

end PrecodahoraScraper
